import Mathlib

/-!
Verification of the Evidence Timeline engine
(backend/app/services/timeline_service.py, with value/filter shapes from
backend/app/schemas/timeline.py).

The Python service is shallowly embedded as executable Lean definitions:

* Dynamo evidence records (`Dict[str, Any]`) become the `Evidence` structure.
  Fields that may be absent or `None` are `Option`s; a field whose value can
  have several Python runtime types is a small sum type (`TsField` for the
  timestamp slot, `LabelsVal` for the labels slot, `TagsVal` for the
  `article_840_tags` slot).  `datetime.fromisoformat` is external library
  code, so a raw timestamp string is embedded by its parse outcome
  (`TsField.isoStr` for a string that parses, `TsField.badStr` for one that
  raises `ValueError`).
* Python truthiness (`x or y`, `if not labels`) is modelled explicitly:
  `None`, `""`, `[]` and empty iterables are falsy.
* A per-record conversion that raises (the only in-scope raising path is
  iterating a non-iterable labels value inside `_calculate_significance`)
  is `Option.none`; `_build_events`' try/except is `List.filterMap`.
* `sorted(key=..., reverse=...)` is a stable insertion sort `pySorted`;
  `reverse=True` sorts by the flipped comparator, which for a stable sort
  agrees with CPython's documented behaviour.
* The orchestrator's collaborators (case repository, membership check,
  Dynamo fetch, audit-log writer) live outside src/ and are passed as
  parameters: two booleans for existence/access, the fetched record list,
  and a boolean saying whether the audit write succeeds.
* The `TimelineResult` pydantic constructor is modelled including its
  `generated_at` field, declared `str` in schemas/timeline.py while the
  service passes `datetime.now(timezone.utc)`: field validation of that
  argument is explicit (`validateStrField`), the wall clock enters
  `get_timeline` as a parameter, and the resulting `ValidationError` is a
  distinct error constructor.  The opaque `metadata` pass-through is not
  modelled; no claim mentions it.
-/

/-- Event type enumeration from `TimelineEventType` in schemas/timeline.py. -/
inductive TimelineEventType
  | message
  | document
  | image
  | audio
  | video
  | incident
deriving DecidableEq, Repr

/-- The `.value` of the Python `str`-enum member. -/
def TimelineEventType.value : TimelineEventType → String
  | .message => "message"
  | .document => "document"
  | .image => "image"
  | .audio => "audio"
  | .video => "video"
  | .incident => "incident"

/-- A parsed Python `datetime`: calendar fields plus an optional fixed UTC
offset in minutes (`none` = naive datetime, no `tzinfo`). -/
structure PyDatetime where
  year : Nat
  month : Nat
  day : Nat
  hour : Nat
  minute : Nat
  second : Nat
  tzOffsetMinutes : Option Int
deriving DecidableEq, Repr

/-- Two-digit zero padding, as `%m`, `%d`, `%H`, `%M` in `strftime`. -/
def pad2 (n : Nat) : String :=
  if n < 10 then "0" ++ toString n else toString n

/-- Four-digit zero padding, as `%Y` in `strftime`. -/
def pad4 (n : Nat) : String :=
  if n < 10 then "000" ++ toString n
  else if n < 100 then "00" ++ toString n
  else if n < 1000 then "0" ++ toString n
  else toString n

/-- `timestamp.strftime("%Y-%m-%d")`: formats the datetime's own calendar
fields (no timezone conversion happens in `strftime`). -/
def formatDate (d : PyDatetime) : String :=
  pad4 d.year ++ "-" ++ pad2 d.month ++ "-" ++ pad2 d.day

/-- `timestamp.strftime("%H:%M")`. -/
def formatTime (d : PyDatetime) : String :=
  pad2 d.hour ++ ":" ++ pad2 d.minute

/-- A truthy value found in the `timestamp` / `created_at` slot of a raw
evidence record.  A string is embedded by the outcome of
`datetime.fromisoformat(s.replace("Z", "+00:00"))`: `isoStr d` is a string
that parses to `d` (so a trailing `Z` shows up as `tzOffsetMinutes = some 0`),
`badStr` is a string for which parsing raises `ValueError` (caught by the
service).  `dt d` is a native `datetime` value, and `otherTruthy` is any
other truthy runtime value, which matches neither `isinstance` branch and
leaves the timestamp unset. -/
inductive TsField
  | isoStr (d : PyDatetime)
  | badStr
  | dt (d : PyDatetime)
  | otherTruthy
deriving DecidableEq, Repr

/-- A value in the `labels` slot (or the nested `categories` slot):
a Python list of strings, some non-list iterable yielding strings (dict of
string keys, tuple, set, ... — falsy iff it yields nothing), or a truthy
non-iterable value whose iteration raises `TypeError`. -/
inductive LabelsVal
  | list (xs : List String)
  | iter (xs : List String)
  | notIterable
deriving DecidableEq, Repr

/-- A value in the `article_840_tags` slot: a dict (with the value of its
`"categories"` key, `none` when missing or `None`), or any non-dict value. -/
inductive TagsVal
  | dict (categories : Option LabelsVal)
  | nonDict
deriving DecidableEq, Repr

/-- One raw DynamoDB evidence record, the `Dict[str, Any]` consumed by
`_evidence_to_event`.  `none` stands for an absent key, a `None` value, or
(where the code only ever tests truthiness before use: `timestamp`,
`created_at`) any other falsy value such as `""`. -/
structure Evidence where
  evidence_id : Option String := none
  id : Option String := none
  timestamp : Option TsField := none
  created_at : Option TsField := none
  labels : Option LabelsVal := none
  article_840_tags : Option TagsVal := none
  ai_summary : Option String := none
  summary : Option String := none
  filename : Option String := none
  content : Option String := none
  speaker : Option String := none
  type : Option String := none
deriving DecidableEq, Repr

/-- `SIGNIFICANCE_WEIGHTS` from timeline_service.py (a dict with these
exact keys; order is the literal order, irrelevant for lookup since keys
are distinct). -/
def SIGNIFICANCE_WEIGHTS : List (String × Nat) :=
  [("부정행위", 5), ("폭행", 5), ("학대", 5),
   ("유기", 4), ("협박", 4), ("위협", 4), ("악의의유기", 4),
   ("폭언", 3), ("계속적_불화", 3), ("혼인_파탄", 3),
   ("재산_문제", 2), ("양육_문제", 2)]

/-- `KEY_EVIDENCE_THRESHOLD` from timeline_service.py. -/
def KEY_EVIDENCE_THRESHOLD : Nat := 4

/-- `SIGNIFICANCE_WEIGHTS.get(label)`: exact dict lookup. -/
def weightsLookup (label : String) : Option Nat :=
  (SIGNIFICANCE_WEIGHTS.find? (fun p => decide (p.1 = label))).map Prod.snd

/-- `TYPE_MAPPING` from timeline_service.py: exactly these six keys. -/
def TYPE_MAPPING : List (String × TimelineEventType) :=
  [("text", .message), ("image", .image), ("audio", .audio),
   ("video", .video), ("pdf", .document), ("document", .document)]

/-- `TYPE_MAPPING.get(raw_type, TimelineEventType.DOCUMENT)`: exact
(case-sensitive) dict lookup with `document` as the default. -/
def mapEventType (raw : String) : TimelineEventType :=
  ((TYPE_MAPPING.find? (fun p => decide (p.1 = raw))).map Prod.snd).getD .document

/-- Python `s or` for an optional-string slot: a present, non-empty string
is truthy; `None` / absent / `""` are falsy. -/
def strTruthy : Option String → Option String
  | some s => if s = "" then none else some s
  | none => none

/-- The result of `value or []` on a labels slot: any falsy value becomes
the empty Python list. -/
def orEmptyList : Option LabelsVal → LabelsVal
  | none => .list []
  | some (.list xs) => .list xs
  | some (.iter xs) => if xs = [] then .list [] else .iter xs
  | some .notIterable => .notIterable

/-- Python truthiness of a (post-`or []`) labels value, as used by
`if not labels:`. -/
def LabelsVal.isFalsy : LabelsVal → Bool
  | .list xs => xs.isEmpty
  | .iter xs => xs.isEmpty
  | .notIterable => false

/-- The strings produced by iterating a labels value (`for label in labels`);
`none` when iteration raises `TypeError`. -/
def LabelsVal.elems : LabelsVal → Option (List String)
  | .list xs => some xs
  | .iter xs => some xs
  | .notIterable => none

/-- Label resolution in `_evidence_to_event` (lines 200-206):
`labels = evidence.get("labels", []) or []`, and when that is falsy, probe
`article_840_tags` for its `categories` value (only when the tags value is
a dict; `evidence.get("article_840_tags", {})` makes an absent slot an
empty dict, whose `categories` lookup yields `[]`). -/
def resolveLabels (labels : Option LabelsVal) (tags : Option TagsVal) : LabelsVal :=
  let l1 := orEmptyList labels
  if l1.isFalsy then
    match tags with
    | none => .list []
    | some (.dict cats) => orEmptyList cats
    | some .nonDict => .list []
  else l1

/-- `_calculate_significance`: 1 for a falsy labels value, otherwise the
maximum of the exact-lookup weights (default 1 per label), clamped to 5.
`none` models the `TypeError` raised by iterating a non-iterable value
(which propagates out of `_evidence_to_event` and drops the record). -/
def calculate_significance (labels : LabelsVal) : Option Nat :=
  if labels.isFalsy then some 1
  else
    match labels.elems with
    | none => none
    | some xs => some (min (xs.foldl (fun m l => max m ((weightsLookup l).getD 1)) 1) 5)

/-- Identifier resolution (line 176):
`evidence.get("evidence_id") or evidence.get("id", "")`. -/
def resolve_evidence_id (ev : Evidence) : String :=
  match ev.evidence_id with
  | some s => if s = "" then ev.id.getD "" else s
  | none => ev.id.getD ""

/-- Timestamp slot resolution (line 179):
`evidence.get("timestamp") or evidence.get("created_at")`. -/
def resolve_ts (ev : Evidence) : Option TsField :=
  match ev.timestamp with
  | some t => some t
  | none => ev.created_at

/-- Timestamp parsing (lines 184-198): a string keeps its `fromisoformat`
result (parse failures are caught and leave the timestamp unset), a native
datetime is taken as is, any other truthy value matches neither
`isinstance` branch.  No timezone conversion is performed anywhere. -/
def parse_ts : Option TsField → Option PyDatetime
  | none => none
  | some (.isoStr d) => some d
  | some .badStr => none
  | some (.dt d) => some d
  | some .otherTruthy => none

/-- Display date string (lines 181, 195). -/
def date_of_ts : Option PyDatetime → String
  | some d => formatDate d
  | none => "날짜 미상"

/-- Display time string (lines 182, 196). -/
def time_of_ts : Option PyDatetime → String
  | some d => formatTime d
  | none => ""

/-- Description resolution (lines 217-222). -/
def resolve_description (ev : Evidence) : String :=
  let d0 :=
    match strTruthy ev.ai_summary with
    | some s => s
    | none =>
      match strTruthy ev.summary with
      | some s => s
      | none => ""
  let d1 := if d0 = "" then ev.filename.getD "증거 자료" else d0
  if d1.length > 100 then d1.take 97 ++ "..." else d1

/-- Content-preview resolution (lines 225-227). -/
def resolve_preview (ev : Evidence) : Option String :=
  match ev.content with
  | none => none
  | some s => some (if s.length > 200 then s.take 197 ++ "..." else s)

/-- The `labels` field stored on the event (line 239):
`labels if isinstance(labels, list) else []`. -/
def labelsOf : LabelsVal → List String
  | .list xs => xs
  | _ => []

/-- The canonical `TimelineEvent` value (pydantic model in
schemas/timeline.py, minus the unmodelled `metadata` pass-through). -/
structure TimelineEvent where
  event_id : String
  evidence_id : String
  case_id : String
  timestamp : Option PyDatetime
  date : String
  time : String
  description : String
  content_preview : Option String
  event_type : TimelineEventType
  labels : List String
  speaker : Option String
  source_file : String
  significance : Nat
  is_key_evidence : Bool
deriving DecidableEq, Repr

/-- `_evidence_to_event`: converts one raw record, `none` when the
conversion raises (so `_build_events` drops the record). -/
def evidence_to_event (ev : Evidence) (case_id : String) : Option TimelineEvent :=
  let evidence_id := resolve_evidence_id ev
  let ts := parse_ts (resolve_ts ev)
  let resolved := resolveLabels ev.labels ev.article_840_tags
  (calculate_significance resolved).map (fun significance =>
    { event_id := "evt_" ++ evidence_id
      evidence_id := evidence_id
      case_id := case_id
      timestamp := ts
      date := date_of_ts ts
      time := time_of_ts ts
      description := resolve_description ev
      content_preview := resolve_preview ev
      event_type := mapEventType (ev.type.getD "document")
      labels := labelsOf resolved
      speaker := ev.speaker
      source_file := ev.filename.getD ""
      significance := significance
      is_key_evidence := decide (significance ≥ KEY_EVIDENCE_THRESHOLD) })

/-- `_build_events`: convert every record, skipping the ones whose
conversion raises (the try/except with a logged warning). -/
def build_events (evidence_list : List Evidence) (case_id : String) : List TimelineEvent :=
  evidence_list.filterMap (fun ev => evidence_to_event ev case_id)

/-- `TimelineFilter` (schemas/timeline.py) with its pydantic defaults.
Validation bounds (`1 ≤ limit ≤ 200`, `0 ≤ offset`) are hypotheses of the
theorems; `offset`/`limit` are `Nat` since pydantic rejects negatives. -/
structure TimelineFilter where
  date_start : Option String := none
  date_end : Option String := none
  labels : Option (List String) := none
  speakers : Option (List String) := none
  event_types : Option (List TimelineEventType) := none
  key_only : Bool := false
  limit : Nat := 50
  offset : Nat := 0
  sort_order : String := "asc"
deriving DecidableEq, Repr

/-- Date-start predicate step (lines 289-293); skipped for a falsy
(`None` or empty-string) bound. -/
def date_start_filter (ds : Option String) (l : List TimelineEvent) : List TimelineEvent :=
  match strTruthy ds with
  | some s => l.filter (fun e => decide (e.date ≠ "날짜 미상") && decide (s ≤ e.date))
  | none => l

/-- Date-end predicate step (lines 295-299). -/
def date_end_filter (de : Option String) (l : List TimelineEvent) : List TimelineEvent :=
  match strTruthy de with
  | some s => l.filter (fun e => decide (e.date ≠ "날짜 미상") && decide (e.date ≤ s))
  | none => l

/-- Label predicate step (lines 302-307); an empty filter list is falsy and
skips the step. -/
def labels_filter (ls : Option (List String)) (l : List TimelineEvent) : List TimelineEvent :=
  match ls with
  | some fs =>
    if fs.isEmpty then l
    else l.filter (fun e => e.labels.any (fun lab => decide (lab ∈ fs)))
  | none => l

/-- Speaker predicate step (lines 310-315); `None` speakers never belong to
a set built from a list of strings. -/
def speakers_filter (sp : Option (List String)) (l : List TimelineEvent) : List TimelineEvent :=
  match sp with
  | some fs =>
    if fs.isEmpty then l
    else l.filter (fun e =>
      match e.speaker with
      | some s => decide (s ∈ fs)
      | none => false)
  | none => l

/-- Event-type predicate step (lines 318-323). -/
def event_types_filter (ts : Option (List TimelineEventType)) (l : List TimelineEvent) :
    List TimelineEvent :=
  match ts with
  | some fs =>
    if fs.isEmpty then l
    else l.filter (fun e => decide (e.event_type ∈ fs))
  | none => l

/-- Key-evidence predicate step (lines 326-327). -/
def key_only_filter (k : Bool) (l : List TimelineEvent) : List TimelineEvent :=
  if k then l.filter (fun e => e.is_key_evidence) else l

/-- The predicate phase of `_apply_filters`: the five AND-combined filter
steps, in source order, before sorting. -/
def filter_phase (events : List TimelineEvent) (f : TimelineFilter) : List TimelineEvent :=
  key_only_filter f.key_only
    (event_types_filter f.event_types
      (speakers_filter f.speakers
        (labels_filter f.labels
          (date_end_filter f.date_end
            (date_start_filter f.date_start events)))))

/-- `sort_key` (lines 331-335): unknown-date events get the sentinel pair,
dated events the (date, time-or-"00:00", event_id) triple.  Python tuples
of strings compare like lexicographic lists of strings. -/
def sort_key (e : TimelineEvent) : List String :=
  if e.date = "날짜 미상" then ["9999-99-99", e.event_id]
  else [e.date, if e.time = "" then "00:00" else e.time, e.event_id]

/-- Python tuple comparison on string tuples: lexicographic, a strict
prefix is smaller. -/
def keyLe : List String → List String → Bool
  | [], _ => true
  | _ :: _, [] => false
  | a :: as, b :: bs => if a < b then true else if b < a then false else keyLe as bs

/-- Comparator used by the sort: `sort_key(a) <= sort_key(b)`. -/
def eventLe (a b : TimelineEvent) : Bool :=
  keyLe (sort_key a) (sort_key b)

/-- Stable insertion into a sorted list: the new element goes after every
element `y` with `le y x` (so after equals — stability). -/
def insertOrd (le : α → α → Bool) (x : α) : List α → List α
  | [] => [x]
  | y :: ys => if le y x then y :: insertOrd le x ys else x :: y :: ys

/-- Stable sort by a total comparator, modelling Python `sorted`: a stable
sort's output is determined by the comparator, so insertion sort is a
faithful embedding of Timsort. -/
def pySorted (le : α → α → Bool) (l : List α) : List α :=
  l.foldl (fun acc x => insertOrd le x acc) []

/-- `_apply_filters` (lines 271-340): predicates, then
`sorted(filtered, key=sort_key, reverse=(sort_order == "desc"))`.
`reverse=True` sorts as if each comparison were reversed, keeping
stability, i.e. a stable sort by the flipped comparator. -/
def apply_filters (events : List TimelineEvent) (f : TimelineFilter) : List TimelineEvent :=
  let filtered := filter_phase events f
  if f.sort_order = "desc" then pySorted (fun a b => eventLe b a) filtered
  else pySorted eventLe filtered

/-- `date_range` value in the result (a two-key dict in the source,
validated into the `DateRange` pydantic model). -/
structure DateRange where
  start : Option String
  end_ : Option String
deriving DecidableEq, Repr

/-- One `Counter`/dict increment: bump the key's count, appending new keys
at the end (Python dicts preserve first-insertion order). -/
def bump (k : String) : List (String × Nat) → List (String × Nat)
  | [] => [(k, 1)]
  | (k', n) :: rest => if k' = k then (k', n + 1) :: rest else (k', n) :: bump k rest

/-- `Counter(e.event_type.value for e in all_events)` (line 378). -/
def count_by_type (events : List TimelineEvent) : List (String × Nat) :=
  events.foldl (fun acc e => bump e.event_type.value acc) []

/-- The per-label counter loop (lines 381-384). -/
def count_by_label (events : List TimelineEvent) : List (String × Nat) :=
  events.foldl (fun acc e => e.labels.foldl (fun acc2 lab => bump lab acc2) acc) []

/-- `TimelineResult` (schemas/timeline.py), including `generated_at`,
declared there with type `str` (line 77). -/
structure TimelineResult where
  case_id : String
  events : List TimelineEvent
  total_count : Nat
  filtered_count : Nat
  has_more : Bool
  date_range : DateRange
  events_by_type : List (String × Nat)
  events_by_label : List (String × Nat)
  key_events_count : Nat
  generated_at : String
deriving DecidableEq, Repr

/-- A Python runtime value handed to the str-typed `generated_at` field of
the `TimelineResult` constructor: an actual string, or a `datetime`
instance (what `_build_result` line 399 passes). -/
inductive PyStrArg
  | str (s : String)
  | datetime (d : PyDatetime)
deriving DecidableEq, Repr

/-- Pydantic validation of a value against a field declared `str`: a `str`
passes unchanged; a `datetime` is rejected with `ValidationError` (pydantic
v1's `str_validator` and v2's lax `str` both reject `datetime`). -/
def validateStrField : PyStrArg → Option String
  | .str s => some s
  | .datetime _ => none

/-- `_build_result` (lines 342-400): pagination of the filtered list,
statistics over the full unfiltered list, then the pydantic
`TimelineResult` constructor, whose str-typed `generated_at` field
validates the `gen` argument; `none` is the `ValidationError` the
constructor raises when that validation fails.  The service calls it with
`gen = .datetime now` (`generated_at=datetime.now(timezone.utc)`, line
399). -/
def build_result (case_id : String) (all_events filtered_events : List TimelineEvent)
    (f : TimelineFilter) (gen : PyStrArg) : Option TimelineResult :=
  let paginated := (filtered_events.drop f.offset).take f.limit
  let has_more := decide (filtered_events.length > f.offset + f.limit)
  let valid_dates := (all_events.filter (fun e => decide (e.date ≠ "날짜 미상"))).map (·.date)
  let date_range : DateRange :=
    match valid_dates with
    | [] => { start := none, end_ := none }
    | d :: ds => { start := some (ds.foldl min d), end_ := some (ds.foldl max d) }
  (validateStrField gen).map (fun g =>
    { case_id := case_id
      events := paginated
      total_count := all_events.length
      filtered_count := filtered_events.length
      has_more := has_more
      date_range := date_range
      events_by_type := count_by_type all_events
      events_by_label := count_by_label all_events
      key_events_count := (all_events.filter (fun e => e.is_key_evidence)).length
      generated_at := g })

/-- The errors that can cross `get_timeline`'s outer boundary:
`NotFoundError` and `PermissionError` from app.middleware, plus the
pydantic `ValidationError` that the `TimelineResult` constructor raises
(uncaught) when field validation fails. -/
inductive TimelineError
  | caseNotFound
  | accessDenied
  | validationError
deriving DecidableEq, Repr

/-- One audit-log row written by `_log_timeline_view` via
`AuditLogService.create_log`. -/
structure AuditEntry where
  user_id : String
  action : String
  object_id : String
deriving DecidableEq, Repr

/-- `get_timeline` (lines 86-130) with its collaborators as parameters:
`caseExists` for `case_repo.get_by_id`, `hasAccess` for
`member_repo.has_access`, `evidence_list` for `get_evidence_by_case`,
`auditOk` for whether `audit_service.create_log` succeeds (its failure is
caught and only logged), and `now` for the wall clock read by
`datetime.now(timezone.utc)` inside `_build_result`.  Returns the
result-or-error together with the audit rows written; the audit write
(line 127) happens before `_build_result` (line 130), so its rows persist
even when the constructor raises. -/
def get_timeline (caseExists hasAccess auditOk : Bool) (evidence_list : List Evidence)
    (case_id user_id : String) (filter : Option TimelineFilter) (now : PyDatetime) :
    Except TimelineError TimelineResult × List AuditEntry :=
  if caseExists = false then (.error .caseNotFound, [])
  else if hasAccess = false then (.error .accessDenied, [])
  else
    let all_events := build_events evidence_list case_id
    let f := filter.getD {}
    let filtered_events := apply_filters all_events f
    let audit := if auditOk then [⟨user_id, "VIEW_CASE", case_id⟩] else []
    match build_result case_id all_events filtered_events f (.datetime now) with
    | none => (.error .validationError, audit)
    | some r => (.ok r, audit)

/-!
Spec-side reference definitions.  These follow the specification's words
(not the source) and exist only to compare the code's behaviour against
what the spec claims; each is clearly named with a `spec_` prefix or a
UTC-instant reading.
-/

/-- Lower-casing of one character, ASCII range (Python `str.lower` on the
alphabets appearing in the tables; Korean has no case). -/
def asciiLowerChar (c : Char) : Char :=
  if 'A' ≤ c ∧ c ≤ 'Z' then Char.ofNat (c.toNat + 32) else c

/-- Case-folded character list of a string. -/
def lowerChars (s : String) : List Char :=
  s.toList.map asciiLowerChar

/-- Following the spec's words in section 4.2: the table entry's key
case-insensitively matches as a substring of the label, or vice versa. -/
def spec_substring_match (key label : String) : Bool :=
  decide (lowerChars key <:+: lowerChars label) || decide (lowerChars label <:+: lowerChars key)

/-- Following the spec's words: the weight a single label receives, namely
the maximum weight of the table entries it substring-matches (1 when it
matches none). -/
def spec_label_weight (label : String) : Nat :=
  SIGNIFICANCE_WEIGHTS.foldl (fun m kw => if spec_substring_match kw.1 label then max m kw.2 else m) 1

/-- Following the spec's words in section 4.2: maximum matched weight over
the labels, default 1, clamped to 5. -/
def spec_significance (labels : List String) : Nat :=
  if labels.isEmpty then 1
  else min ((labels.map spec_label_weight).foldl max 1) 5

/-- Following the spec's words in section 4.1: the eight-entry
case-insensitive type table, unknown mapping to document. -/
def spec_type_mapping (raw : String) : TimelineEventType :=
  let table : List (String × TimelineEventType) :=
    [("text", .message), ("image", .image), ("audio", .audio), ("video", .video),
     ("pdf", .document), ("document", .document), ("message", .message),
     ("incident", .incident)]
  ((table.find? (fun p => lowerChars p.1 == lowerChars raw)).map Prod.snd).getD .document

/-- Days from 1970-01-01 of a proleptic Gregorian civil date (the standard
era-based formula, with truncating integer division). -/
def daysFromCivil (y m d : Nat) : Int :=
  let y' : Int := if m ≤ 2 then (y : Int) - 1 else (y : Int)
  let era : Int := (if 0 ≤ y' then y' else y' - 399) / 400
  let yoe : Int := y' - era * 400
  let mp : Int := ((m : Int) + 9) % 12
  let doy : Int := (153 * mp + 2) / 5 + (d : Int) - 1
  let doe : Int := yoe * 365 + yoe / 4 - yoe / 100 + doy
  era * 146097 + doe - 719468

/-- The UTC instant a parsed datetime denotes, in minutes since the epoch:
this is the spec's "timezone-normalized to UTC" reading of a timestamp (a
naive datetime is assumed UTC, i.e. offset 0). -/
def utcInstantMinutes (d : PyDatetime) : Int :=
  daysFromCivil d.year d.month d.day * 1440 + (d.hour : Int) * 60 + (d.minute : Int)
    - d.tzOffsetMinutes.getD 0

/-!
Generic facts about the sorting machinery.
-/

theorem keyLe_cons_lt {a b : String} (h : a < b) (as bs : List String) :
    keyLe (a :: as) (b :: bs) = true := by
  simp [keyLe, h]

theorem keyLe_cons_gt {a b : String} (h : b < a) (as bs : List String) :
    keyLe (a :: as) (b :: bs) = false := by
  simp [keyLe, h, asymm h]

theorem keyLe_cons_self (a : String) (as bs : List String) :
    keyLe (a :: as) (a :: bs) = keyLe as bs := by
  simp [keyLe]

theorem keyLe_total : ∀ k1 k2 : List String, keyLe k1 k2 = true ∨ keyLe k2 k1 = true := by
  intro k1
  induction k1 with
  | nil => intro k2; exact Or.inl rfl
  | cons a as ih =>
    intro k2
    cases k2 with
    | nil => exact Or.inr rfl
    | cons b bs =>
      rcases lt_trichotomy a b with h | h | h
      · left; exact keyLe_cons_lt h as bs
      · subst h
        rcases ih bs with h' | h'
        · left; rw [keyLe_cons_self]; exact h'
        · right; rw [keyLe_cons_self]; exact h'
      · right; exact keyLe_cons_lt h bs as

theorem keyLe_trans :
    ∀ k1 k2 k3 : List String, keyLe k1 k2 = true → keyLe k2 k3 = true → keyLe k1 k3 = true := by
  intro k1
  induction k1 with
  | nil => intro k2 k3 _ _; rfl
  | cons a as ih =>
    intro k2 k3 h12 h23
    cases k2 with
    | nil => simp [keyLe] at h12
    | cons b bs =>
      cases k3 with
      | nil => simp [keyLe] at h23
      | cons c cs =>
        rcases lt_trichotomy a b with hab | hab | hab
        · rcases lt_trichotomy b c with hbc | hbc | hbc
          · exact keyLe_cons_lt (lt_trans hab hbc) as cs
          · subst hbc; exact keyLe_cons_lt hab as cs
          · rw [keyLe_cons_gt hbc] at h23; exact absurd h23 (by simp)
        · subst hab
          rcases lt_trichotomy a c with hac | hac | hac
          · exact keyLe_cons_lt hac as cs
          · subst hac
            rw [keyLe_cons_self] at h12 h23 ⊢
            exact ih bs cs h12 h23
          · rw [keyLe_cons_gt hac] at h23; exact absurd h23 (by simp)
        · rw [keyLe_cons_gt hab] at h12; exact absurd h12 (by simp)

theorem keyLe_antisymm :
    ∀ k1 k2 : List String, keyLe k1 k2 = true → keyLe k2 k1 = true → k1 = k2 := by
  intro k1
  induction k1 with
  | nil =>
    intro k2 _ h21
    cases k2 with
    | nil => rfl
    | cons b bs => simp [keyLe] at h21
  | cons a as ih =>
    intro k2 h12 h21
    cases k2 with
    | nil => simp [keyLe] at h12
    | cons b bs =>
      rcases lt_trichotomy a b with hab | hab | hab
      · rw [keyLe_cons_gt hab] at h21; exact absurd h21 (by simp)
      · subst hab
        rw [keyLe_cons_self] at h12 h21
        rw [ih bs h12 h21]
      · rw [keyLe_cons_gt hab] at h12; exact absurd h12 (by simp)

theorem mem_insertOrd (le : α → α → Bool) (x : α) :
    ∀ (l : List α) (z : α), z ∈ insertOrd le x l ↔ z = x ∨ z ∈ l := by
  intro l
  induction l with
  | nil => intro z; simp [insertOrd]
  | cons y ys ih =>
    intro z
    by_cases h : le y x = true
    · simp only [insertOrd, if_pos h, List.mem_cons, ih]
      tauto
    · simp [insertOrd, if_neg h, List.mem_cons]

theorem insertOrd_perm (le : α → α → Bool) (x : α) :
    ∀ l : List α, (insertOrd le x l).Perm (x :: l) := by
  intro l
  induction l with
  | nil => simp [insertOrd]
  | cons y ys ih =>
    by_cases h : le y x = true
    · simp only [insertOrd, if_pos h]
      exact (ih.cons y).trans (List.Perm.swap x y ys)
    · simp only [insertOrd, if_neg h]
      exact List.Perm.refl _

theorem pairwise_insertOrd {le : α → α → Bool}
    (htot : ∀ a b, le a b = true ∨ le b a = true)
    (htrans : ∀ a b c, le a b = true → le b c = true → le a c = true) (x : α) :
    ∀ {l : List α}, l.Pairwise (fun a b => le a b = true) →
      (insertOrd le x l).Pairwise (fun a b => le a b = true) := by
  intro l
  induction l with
  | nil => intro _; simp [insertOrd]
  | cons y ys ih =>
    intro hp
    rw [List.pairwise_cons] at hp
    by_cases h : le y x = true
    · simp only [insertOrd, if_pos h]
      rw [List.pairwise_cons]
      refine ⟨?_, ih hp.2⟩
      intro z hz
      rcases (mem_insertOrd le x ys z).1 hz with rfl | hz'
      · exact h
      · exact hp.1 z hz'
    · have hxy : le x y = true := (htot x y).resolve_right h
      simp only [insertOrd, if_neg h]
      rw [List.pairwise_cons]
      refine ⟨?_, List.pairwise_cons.mpr hp⟩
      intro z hz
      rcases List.mem_cons.mp hz with rfl | hz'
      · exact hxy
      · exact htrans x y z hxy (hp.1 z hz')

theorem pairwise_foldl_insertOrd {le : α → α → Bool}
    (htot : ∀ a b, le a b = true ∨ le b a = true)
    (htrans : ∀ a b c, le a b = true → le b c = true → le a c = true) :
    ∀ (l acc : List α), acc.Pairwise (fun a b => le a b = true) →
      (l.foldl (fun acc x => insertOrd le x acc) acc).Pairwise (fun a b => le a b = true) := by
  intro l
  induction l with
  | nil => intro acc h; simpa using h
  | cons x xs ih =>
    intro acc h
    simpa using ih (insertOrd le x acc) (pairwise_insertOrd htot htrans x h)

theorem pairwise_pySorted {le : α → α → Bool}
    (htot : ∀ a b, le a b = true ∨ le b a = true)
    (htrans : ∀ a b c, le a b = true → le b c = true → le a c = true) (l : List α) :
    (pySorted le l).Pairwise (fun a b => le a b = true) :=
  pairwise_foldl_insertOrd htot htrans l [] List.Pairwise.nil

theorem perm_foldl_insertOrd (le : α → α → Bool) :
    ∀ l acc : List α, (l.foldl (fun acc x => insertOrd le x acc) acc).Perm (acc ++ l) := by
  intro l
  induction l with
  | nil => intro acc; simp
  | cons x xs ih =>
    intro acc
    have h1 := ih (insertOrd le x acc)
    have h2 : (insertOrd le x acc ++ xs).Perm ((x :: acc) ++ xs) :=
      (insertOrd_perm le x acc).append_right xs
    have h4 : (x :: (acc ++ xs)).Perm (acc ++ x :: xs) := List.perm_middle.symm
    simpa using (h1.trans h2).trans h4

theorem perm_pySorted (le : α → α → Bool) (l : List α) : (pySorted le l).Perm l := by
  simpa using perm_foldl_insertOrd le l []

theorem pairwise_perm_eq {R : α → α → Prop} :
    ∀ l1 l2 : List α, l1.Perm l2 → l1.Pairwise R → l2.Pairwise R →
      (∀ a b, a ∈ l1 → b ∈ l1 → R a b → R b a → a = b) → l1 = l2 := by
  intro l1
  induction l1 with
  | nil =>
    intro l2 hp _ _ _
    exact hp.nil_eq
  | cons a t ih =>
    intro l2 hp h1 h2 hanti
    cases l2 with
    | nil => exact absurd hp.symm.nil_eq (by simp)
    | cons c t2 =>
      have hac : a = c := by
        by_contra hne
        have ha2 : a ∈ c :: t2 := hp.subset (List.mem_cons_self a t)
        have hat2 : a ∈ t2 := by
          rcases List.mem_cons.mp ha2 with h | h
          · exact absurd h hne
          · exact h
        have hc1 : c ∈ a :: t := hp.symm.subset (List.mem_cons_self c t2)
        have hct : c ∈ t := by
          rcases List.mem_cons.mp hc1 with h | h
          · exact absurd h.symm hne
          · exact h
        have hRac : R a c := (List.pairwise_cons.mp h1).1 c hct
        have hRca : R c a := (List.pairwise_cons.mp h2).1 a hat2
        exact hne (hanti a c (List.mem_cons_self a t) (List.mem_cons_of_mem a hct) hRac hRca)
      subst hac
      have hpt : t.Perm t2 := hp.cons_inv
      have ht : t = t2 :=
        ih t2 hpt (List.pairwise_cons.mp h1).2 (List.pairwise_cons.mp h2).2
          (fun x y hx hy => hanti x y (List.mem_cons_of_mem a hx) (List.mem_cons_of_mem a hy))
      rw [ht]

theorem pySorted_flip_reverse {le : α → α → Bool}
    (htot : ∀ a b, le a b = true ∨ le b a = true)
    (htrans : ∀ a b c, le a b = true → le b c = true → le a c = true) (l : List α)
    (hanti : ∀ a b, a ∈ l → b ∈ l → le a b = true → le b a = true → a = b) :
    pySorted (fun a b => le b a) l = (pySorted le l).reverse := by
  have htot' : ∀ a b : α, le b a = true ∨ le a b = true := fun a b => (htot a b).symm
  have htrans' : ∀ a b c : α, le b a = true → le c b = true → le c a = true :=
    fun a b c h1 h2 => htrans c b a h2 h1
  have hperm : (pySorted (fun a b => le b a) l).Perm ((pySorted le l).reverse) :=
    (perm_pySorted _ l).trans ((perm_pySorted le l).symm.trans (List.reverse_perm _).symm)
  have hpw1 : (pySorted (fun a b => le b a) l).Pairwise (fun a b => le b a = true) :=
    pairwise_pySorted htot' htrans' l
  have hpw2 : ((pySorted le l).reverse).Pairwise (fun a b => le b a = true) :=
    List.pairwise_reverse.mpr (pairwise_pySorted htot htrans l)
  refine pairwise_perm_eq _ _ hperm hpw1 hpw2 ?_
  intro a b ha hb h1 h2
  have hmem : ∀ x, x ∈ pySorted (fun a b => le b a) l → x ∈ l := fun x hx =>
    (perm_pySorted (fun a b => le b a) l).subset hx
  exact hanti a b (hmem a ha) (hmem b hb) h2 h1

/-!
Facts about the filter steps and the event comparator.
-/

theorem eventLe_total : ∀ a b : TimelineEvent, eventLe a b = true ∨ eventLe b a = true :=
  fun a b => keyLe_total (sort_key a) (sort_key b)

theorem eventLe_trans :
    ∀ a b c : TimelineEvent, eventLe a b = true → eventLe b c = true → eventLe a c = true :=
  fun _ _ _ h1 h2 => keyLe_trans _ _ _ h1 h2

theorem sort_key_event_id {a b : TimelineEvent} (h : sort_key a = sort_key b) :
    a.event_id = b.event_id := by
  unfold sort_key at h
  by_cases ha : a.date = "날짜 미상"
  · by_cases hb : b.date = "날짜 미상"
    · rw [if_pos ha, if_pos hb] at h
      simp only [List.cons.injEq] at h
      exact h.2.1
    · rw [if_pos ha, if_neg hb] at h
      have hl := congrArg List.length h
      simp at hl
  · by_cases hb : b.date = "날짜 미상"
    · rw [if_neg ha, if_pos hb] at h
      have hl := congrArg List.length h
      simp at hl
    · rw [if_neg ha, if_neg hb] at h
      simp only [List.cons.injEq] at h
      exact h.2.2.1

theorem eventLe_false_of_unknown_dated {a b : TimelineEvent}
    (ha : a.date = "날짜 미상") (hb : b.date ≠ "날짜 미상") (hlt : b.date < "9999-99-99") :
    eventLe a b = false := by
  unfold eventLe sort_key
  rw [if_pos ha, if_neg hb]
  exact keyLe_cons_gt hlt _ _

theorem strTruthy_some_ne {s : String} (hs : s ≠ "") : strTruthy (some s) = some s := by
  simp [strTruthy, hs]

theorem date_start_filter_sublist (ds : Option String) (l : List TimelineEvent) :
    List.Sublist (date_start_filter ds l) l := by
  unfold date_start_filter
  split
  · exact List.filter_sublist _
  · exact List.Sublist.refl _

theorem date_end_filter_sublist (de : Option String) (l : List TimelineEvent) :
    List.Sublist (date_end_filter de l) l := by
  unfold date_end_filter
  split
  · exact List.filter_sublist _
  · exact List.Sublist.refl _

theorem labels_filter_sublist (ls : Option (List String)) (l : List TimelineEvent) :
    List.Sublist (labels_filter ls l) l := by
  unfold labels_filter
  split
  · split
    · exact List.Sublist.refl _
    · exact List.filter_sublist _
  · exact List.Sublist.refl _

theorem speakers_filter_sublist (sp : Option (List String)) (l : List TimelineEvent) :
    List.Sublist (speakers_filter sp l) l := by
  unfold speakers_filter
  split
  · split
    · exact List.Sublist.refl _
    · exact List.filter_sublist _
  · exact List.Sublist.refl _

theorem event_types_filter_sublist (ts : Option (List TimelineEventType))
    (l : List TimelineEvent) : List.Sublist (event_types_filter ts l) l := by
  unfold event_types_filter
  split
  · split
    · exact List.Sublist.refl _
    · exact List.filter_sublist _
  · exact List.Sublist.refl _

theorem key_only_filter_sublist (k : Bool) (l : List TimelineEvent) :
    List.Sublist (key_only_filter k l) l := by
  unfold key_only_filter
  split
  · exact List.filter_sublist _
  · exact List.Sublist.refl _

theorem filter_phase_sublist (events : List TimelineEvent) (f : TimelineFilter) :
    List.Sublist (filter_phase events f) events := by
  unfold filter_phase
  exact (key_only_filter_sublist _ _).trans
    ((event_types_filter_sublist _ _).trans
      ((speakers_filter_sublist _ _).trans
        ((labels_filter_sublist _ _).trans
          ((date_end_filter_sublist _ _).trans (date_start_filter_sublist _ _)))))

theorem mem_of_filter_phase {events : List TimelineEvent} {f : TimelineFilter}
    {e : TimelineEvent} (h : e ∈ filter_phase events f) : e ∈ events :=
  (filter_phase_sublist events f).subset h

theorem filter_phase_mem_date_end {events : List TimelineEvent} {f : TimelineFilter}
    {e : TimelineEvent} (h : e ∈ filter_phase events f) :
    e ∈ date_end_filter f.date_end (date_start_filter f.date_start events) := by
  unfold filter_phase at h
  have h1 := (key_only_filter_sublist _ _).subset h
  have h2 := (event_types_filter_sublist _ _).subset h1
  have h3 := (speakers_filter_sublist _ _).subset h2
  exact (labels_filter_sublist _ _).subset h3

theorem mem_date_start_filter_iff {s : String} (hs : s ≠ "") (l : List TimelineEvent)
    (e : TimelineEvent) :
    e ∈ date_start_filter (some s) l ↔ e ∈ l ∧ e.date ≠ "날짜 미상" ∧ s ≤ e.date := by
  unfold date_start_filter
  rw [strTruthy_some_ne hs]
  simp [List.mem_filter, and_assoc]

theorem mem_date_end_filter_iff {s : String} (hs : s ≠ "") (l : List TimelineEvent)
    (e : TimelineEvent) :
    e ∈ date_end_filter (some s) l ↔ e ∈ l ∧ e.date ≠ "날짜 미상" ∧ e.date ≤ s := by
  unfold date_end_filter
  rw [strTruthy_some_ne hs]
  simp [List.mem_filter, and_assoc]

theorem apply_filters_not_desc {events : List TimelineEvent} {f : TimelineFilter}
    (h : ¬ f.sort_order = "desc") :
    apply_filters events f = pySorted eventLe (filter_phase events f) := by
  simp [apply_filters, h]

theorem apply_filters_desc {events : List TimelineEvent} {f : TimelineFilter}
    (h : f.sort_order = "desc") :
    apply_filters events f = pySorted (fun a b => eventLe b a) (filter_phase events f) := by
  simp [apply_filters, h]

theorem mem_of_apply_filters {events : List TimelineEvent} {f : TimelineFilter}
    {e : TimelineEvent} (h : e ∈ apply_filters events f) : e ∈ filter_phase events f := by
  by_cases hso : f.sort_order = "desc"
  · rw [apply_filters_desc hso] at h
    exact (perm_pySorted _ _).subset h
  · rw [apply_filters_not_desc hso] at h
    exact (perm_pySorted _ _).subset h

/-- C2: the filter engine sorts the filtered events ascending by the
(date, time-or-"00:00", event_id) key, a strict total order once event_ids
are distinct; setting sort_order to "desc" reverses the entire ordering;
unknown-date events (whose key starts with the "9999-99-99" sentinel) come
after every dated event ascending and before every dated event descending,
so the two groups never interleave.  The date hypothesis records that
normalized display dates (strftime output, year at most 9999, month at most
12) are lexicographically below the sentinel. -/
theorem C2_sort_order (events : List TimelineEvent) (f : TimelineFilter)
    (hasc : f.sort_order = "asc")
    (hn : (events.map TimelineEvent.event_id).Nodup)
    (hd : ∀ e ∈ events, e.date ≠ "날짜 미상" → e.date < "9999-99-99") :
    (apply_filters events f).Perm (filter_phase events f) ∧
    (apply_filters events f).Pairwise (fun a b => eventLe a b = true) ∧
    (apply_filters events f).Pairwise
      (fun a b => eventLe a b = true ∧ a.event_id ≠ b.event_id) ∧
    apply_filters events {f with sort_order := "desc"} = (apply_filters events f).reverse ∧
    (apply_filters events f).Pairwise
      (fun a b => a.date = "날짜 미상" → b.date = "날짜 미상") ∧
    (apply_filters events {f with sort_order := "desc"}).Pairwise
      (fun a b => b.date = "날짜 미상" → a.date = "날짜 미상") := by
  have hnd : ¬ f.sort_order = "desc" := by rw [hasc]; decide
  have heq : apply_filters events f = pySorted eventLe (filter_phase events f) :=
    apply_filters_not_desc hnd
  have hdf : ({f with sort_order := "desc"} : TimelineFilter).sort_order = "desc" := rfl
  have heqd : apply_filters events {f with sort_order := "desc"}
      = pySorted (fun a b => eventLe b a) (filter_phase events f) := by
    rw [apply_filters_desc hdf]
    rfl
  have hanti : ∀ a b : TimelineEvent, a ∈ filter_phase events f → b ∈ filter_phase events f →
      eventLe a b = true → eventLe b a = true → a = b := by
    intro a b ha hb h1 h2
    have hk : sort_key a = sort_key b := keyLe_antisymm _ _ h1 h2
    exact List.inj_on_of_nodup_map hn (mem_of_filter_phase ha) (mem_of_filter_phase hb)
      (sort_key_event_id hk)
  have hperm : (apply_filters events f).Perm (filter_phase events f) := by
    rw [heq]; exact perm_pySorted _ _
  have hpw : (apply_filters events f).Pairwise (fun a b => eventLe a b = true) := by
    rw [heq]; exact pairwise_pySorted eventLe_total eventLe_trans _
  have hmemasc : ∀ x : TimelineEvent, x ∈ apply_filters events f → x ∈ events :=
    fun x hx => mem_of_filter_phase (hperm.subset hx)
  have hnodupasc : (apply_filters events f).Nodup := by
    have hne : events.Nodup := List.Nodup.of_map _ hn
    have hnp : (filter_phase events f).Nodup := (filter_phase_sublist events f).nodup hne
    exact hperm.nodup_iff.mpr hnp
  have hstrict : (apply_filters events f).Pairwise
      (fun a b => eventLe a b = true ∧ a.event_id ≠ b.event_id) := by
    have hand := hpw.and hnodupasc
    refine hand.imp_of_mem ?_
    intro a b ha hb hr
    refine ⟨hr.1, fun hid => hr.2 ?_⟩
    exact List.inj_on_of_nodup_map hn (hmemasc a ha) (hmemasc b hb) hid
  have hrev : apply_filters events {f with sort_order := "desc"}
      = (apply_filters events f).reverse := by
    rw [heqd, heq]
    exact pySorted_flip_reverse eventLe_total eventLe_trans _ hanti
  have hunk : (apply_filters events f).Pairwise
      (fun a b => a.date = "날짜 미상" → b.date = "날짜 미상") := by
    refine hpw.imp_of_mem ?_
    intro a b ha hb hle had
    by_contra hbd
    have hblt := hd b (hmemasc b hb) hbd
    have hfalse := eventLe_false_of_unknown_dated had hbd hblt
    rw [hfalse] at hle
    exact Bool.false_ne_true hle
  refine ⟨hperm, hpw, hstrict, hrev, hunk, ?_⟩
  rw [hrev]
  exact List.pairwise_reverse.mpr hunk

/-- A dated concrete event used by the C2 witness. -/
def c2_dated : TimelineEvent :=
  { event_id := "evt_a", evidence_id := "a", case_id := "c", timestamp := none,
    date := "2024-01-10", time := "09:00", description := "", content_preview := none,
    event_type := .message, labels := [], speaker := none, source_file := "",
    significance := 1, is_key_evidence := false }

/-- An unknown-date concrete event used by the C2 witness. -/
def c2_unknown : TimelineEvent :=
  { event_id := "evt_b", evidence_id := "b", case_id := "c", timestamp := none,
    date := "날짜 미상", time := "", description := "", content_preview := none,
    event_type := .image, labels := [], speaker := none, source_file := "",
    significance := 1, is_key_evidence := false }

/-- Dates of the C2 witness events are the sentinel or lie below the
sentinel key. -/
theorem c2_dates_below :
    ∀ e ∈ [c2_dated, c2_unknown], e.date ≠ "날짜 미상" → e.date < "9999-99-99" := by
  intro e he
  rcases List.mem_cons.mp he with rfl | he
  · intro _
    show ("2024-01-10" : String) < "9999-99-99"
    rw [String.lt_iff_toList_lt]
    decide
  · rcases List.mem_cons.mp he with rfl | he
    · intro h
      exact absurd rfl h
    · exact absurd he (by simp)

/-- Witness for C2 at a concrete two-event list and the default filter. -/
theorem C2_sort_order_witness :
    ([c2_dated, c2_unknown].map TimelineEvent.event_id).Nodup ∧
    (∀ e ∈ [c2_dated, c2_unknown], e.date ≠ "날짜 미상" → e.date < "9999-99-99") ∧
    apply_filters [c2_dated, c2_unknown] { sort_order := "desc" }
      = (apply_filters [c2_dated, c2_unknown] {}).reverse :=
  ⟨by decide, c2_dates_below,
    (C2_sort_order [c2_dated, c2_unknown] {} rfl (by decide) c2_dates_below).2.2.2.1⟩

/-- C1: for a validated filter, the result record built at lines 361-398
(existing whenever the str-typed generated_at field validates; the
constructor's crash on the datetime the service actually passes is C6's
concern) carries exactly the filtered sequence sliced from offset to
offset+limit as its page, filtered_count bounds the page length, and
has_more holds exactly when filtered_count exceeds offset + limit. -/
theorem C1_pagination (case_id : String) (all_events : List TimelineEvent)
    (f : TimelineFilter) (g : String) (hlim1 : 1 ≤ f.limit) (hlim2 : f.limit ≤ 200) :
    ∃ r, build_result case_id all_events (apply_filters all_events f) f (.str g) = some r ∧
      r.events = ((apply_filters all_events f).drop f.offset).take f.limit ∧
      r.events.length ≤ r.filtered_count ∧
      (r.has_more = true ↔ f.offset + f.limit < r.filtered_count) := by
  refine ⟨_, rfl, rfl, ?_, ?_⟩
  · show (((apply_filters all_events f).drop f.offset).take f.limit).length
        ≤ (apply_filters all_events f).length
    rw [List.length_take, List.length_drop]
    omega
  · show decide ((apply_filters all_events f).length > f.offset + f.limit) = true ↔ _
    rw [decide_eq_true_iff]

/-- Witness for C1 at the default filter and an empty event list. -/
theorem C1_pagination_witness :
    1 ≤ ({} : TimelineFilter).limit ∧ ({} : TimelineFilter).limit ≤ 200 ∧
    (∃ r, build_result "c" [] (apply_filters [] {}) {} (.str "t") = some r ∧
      r.events = ((apply_filters [] {}).drop ({} : TimelineFilter).offset).take
          ({} : TimelineFilter).limit ∧
      r.events.length ≤ r.filtered_count ∧
      (r.has_more = true ↔ ({} : TimelineFilter).offset + ({} : TimelineFilter).limit
          < r.filtered_count)) :=
  ⟨by decide, by decide, C1_pagination "c" [] {} "t" (by decide) (by decide)⟩

/-- C3: a non-empty date_start bound keeps exactly the events whose display
date is not the unknown sentinel and is lexicographically at least the
bound; dually for date_end; consequently an unknown-date event is excluded
from the filtered output whenever either bound is set. -/
theorem C3_date_bounds (l events : List TimelineEvent) (f : TimelineFilter)
    (ds de : String) (e : TimelineEvent) (hds : ds ≠ "") (hde : de ≠ "") :
    (e ∈ date_start_filter (some ds) l ↔ e ∈ l ∧ e.date ≠ "날짜 미상" ∧ ds ≤ e.date) ∧
    (e ∈ date_end_filter (some de) l ↔ e ∈ l ∧ e.date ≠ "날짜 미상" ∧ e.date ≤ de) ∧
    ((f.date_start = some ds ∨ f.date_end = some de) → e.date = "날짜 미상" →
      e ∉ apply_filters events f) := by
  refine ⟨mem_date_start_filter_iff hds l e, mem_date_end_filter_iff hde l e, ?_⟩
  rintro (hf | hf) hdate hmem
  · have h1 := filter_phase_mem_date_end (mem_of_apply_filters hmem)
    have h2 := (date_end_filter_sublist f.date_end _).subset h1
    rw [hf] at h2
    exact ((mem_date_start_filter_iff hds events e).mp h2).2.1 hdate
  · have h1 := filter_phase_mem_date_end (mem_of_apply_filters hmem)
    rw [hf] at h1
    exact ((mem_date_end_filter_iff hde _ e).mp h1).2.1 hdate

/-- Witness for C3: a concrete unknown-date event is excluded once
date_start is set. -/
theorem C3_date_bounds_witness :
    ("2024-01-01" : String) ≠ "" ∧
    c2_unknown ∉ apply_filters [c2_unknown] { date_start := some "2024-01-01" } :=
  ⟨by decide,
    (C3_date_bounds [] [c2_unknown] { date_start := some "2024-01-01" }
      "2024-01-01" "2024-01-01" c2_unknown (by decide) (by decide)).2.2 (Or.inl rfl) rfl⟩

/-- C10: all statistics fields of the result record built at lines 361-398
are computed over the full unfiltered event list, so they agree between any
two filter values. -/
theorem C10_stats_filter_independent (case_id : String) (all_events : List TimelineEvent)
    (f1 f2 : TimelineFilter) (g1 g2 : String) :
    ∃ r1 r2,
      build_result case_id all_events (apply_filters all_events f1) f1 (.str g1) = some r1 ∧
      build_result case_id all_events (apply_filters all_events f2) f2 (.str g2) = some r2 ∧
      r1.total_count = r2.total_count ∧
      r1.date_range = r2.date_range ∧
      r1.events_by_type = r2.events_by_type ∧
      r1.events_by_label = r2.events_by_label ∧
      r1.key_events_count = r2.key_events_count :=
  ⟨_, _, rfl, rfl, rfl, rfl, rfl, rfl, rfl⟩

/-- C6: the claimed error policy is broken by the code itself.  The access
checks behave as claimed (caseNotFound exactly when the case is missing,
accessDenied exactly when membership fails) and an audit failure never
changes the returned value, but every access-authorized call — regardless
of the evidence list, the filter and the wall clock — raises the pydantic
ValidationError of the TimelineResult constructor, because _build_result
line 399 passes datetime.now(timezone.utc) to the generated_at field that
schemas/timeline.py line 77 declares as str; no call ever returns ok, so
an error other than CaseNotFound/AccessDenied crosses the outer boundary
on the entire success path, contradicting the claim and get_timeline's own
docstring (lines 103-105). -/
theorem C6_validation_error_escapes (caseExists hasAccess auditOk : Bool)
    (evidence_list : List Evidence) (case_id user_id : String)
    (filter : Option TimelineFilter) (now : PyDatetime) :
    ((get_timeline caseExists hasAccess auditOk evidence_list case_id user_id filter now).1
        = Except.error .caseNotFound ↔ caseExists = false) ∧
    ((get_timeline caseExists hasAccess auditOk evidence_list case_id user_id filter now).1
        = Except.error .accessDenied ↔ (caseExists = true ∧ hasAccess = false)) ∧
    ((get_timeline caseExists hasAccess auditOk evidence_list case_id user_id filter now).1
        = Except.error .validationError ↔ (caseExists = true ∧ hasAccess = true)) ∧
    (∀ r : TimelineResult,
      ((get_timeline caseExists hasAccess auditOk evidence_list case_id user_id filter now).1
        = Except.ok r ↔ False)) ∧
    (get_timeline caseExists hasAccess true evidence_list case_id user_id filter now).1
      = (get_timeline caseExists hasAccess false evidence_list case_id user_id filter now).1 := by
  cases caseExists <;> cases hasAccess <;>
    simp [get_timeline, build_result, validateStrField]

/-!
Facts about the significance fold.
-/

theorem foldl_max_init_le (g : String → Nat) :
    ∀ (ls : List String) (init : Nat), init ≤ ls.foldl (fun m l => max m (g l)) init := by
  intro ls
  induction ls with
  | nil => intro init; exact le_refl _
  | cons x xs ih =>
    intro init
    simp only [List.foldl_cons]
    exact le_trans (Nat.le_max_left init (g x)) (ih (max init (g x)))

theorem foldl_max_le_bound (g : String → Nat) :
    ∀ (ls : List String) (init B : Nat), init ≤ B → (∀ l ∈ ls, g l ≤ B) →
      ls.foldl (fun m l => max m (g l)) init ≤ B := by
  intro ls
  induction ls with
  | nil => intro init B h _; exact h
  | cons x xs ih =>
    intro init B hinit hall
    simp only [List.foldl_cons]
    refine ih _ B ?_ ?_
    · exact max_le hinit (hall x (List.mem_cons_self x xs))
    · intro l hl
      exact hall l (List.mem_cons_of_mem x hl)

theorem le_foldl_max_of_mem (g : String → Nat) :
    ∀ (ls : List String) (init : Nat) (l : String), l ∈ ls →
      g l ≤ ls.foldl (fun m l => max m (g l)) init := by
  intro ls
  induction ls with
  | nil => intro init l hl; exact absurd hl (by simp)
  | cons x xs ih =>
    intro init l hl
    simp only [List.foldl_cons]
    rcases List.mem_cons.mp hl with rfl | hl'
    · exact le_trans (Nat.le_max_right init (g l)) (foldl_max_init_le g xs _)
    · exact ih _ l hl'

theorem foldl_max_provenance (g : String → Nat) :
    ∀ (ls : List String) (init : Nat),
      ls.foldl (fun m l => max m (g l)) init = init ∨
      ∃ l ∈ ls, g l = ls.foldl (fun m l => max m (g l)) init := by
  intro ls
  induction ls with
  | nil => intro init; left; rfl
  | cons x xs ih =>
    intro init
    simp only [List.foldl_cons]
    rcases ih (max init (g x)) with h | ⟨l, hl, hgl⟩
    · rcases Nat.le_total (g x) init with hle | hle
      · left; rw [h, Nat.max_eq_left hle]
      · right
        exact ⟨x, List.mem_cons_self x xs, by rw [h, Nat.max_eq_right hle]⟩
    · right
      exact ⟨l, List.mem_cons_of_mem x hl, hgl⟩

theorem weightsLookup_mem {l : String} {w : Nat} (h : weightsLookup l = some w) :
    (l, w) ∈ SIGNIFICANCE_WEIGHTS := by
  unfold weightsLookup at h
  rcases Option.map_eq_some'.mp h with ⟨p, hp, hsnd⟩
  have hmem := List.mem_of_find?_eq_some hp
  have hpred := @List.find?_some _ _ _ _ hp
  have hp1 : p.1 = l := of_decide_eq_true hpred
  have hpw : p = (l, w) := Prod.ext hp1 hsnd
  rw [← hpw]
  exact hmem

theorem weights_vals : ∀ p ∈ SIGNIFICANCE_WEIGHTS, 2 ≤ p.2 ∧ p.2 ≤ 5 := by decide

theorem label_weight_le_5 (l : String) : (weightsLookup l).getD 1 ≤ 5 := by
  cases h : weightsLookup l with
  | none => simp
  | some w =>
    simp only [Option.getD_some]
    exact (weights_vals _ (weightsLookup_mem h)).2

theorem calculate_significance_list (ls : List String) :
    calculate_significance (.list ls)
      = some (min (ls.foldl (fun m l => max m ((weightsLookup l).getD 1)) 1) 5) := by
  cases ls with
  | nil => rfl
  | cons x xs => rfl

/-- C4 counterexample: the spec's scorer gives the label "부정행위_의심"
(which contains the weight-5 table key "부정행위" as a substring) a score of
5, but the code's exact dict lookup scores it 1. -/
theorem C4_counterexample :
    calculate_significance (.list ["부정행위_의심"]) = some 1 ∧
    spec_substring_match "부정행위" "부정행위_의심" = true ∧
    weightsLookup "부정행위" = some 5 ∧
    spec_significance ["부정행위_의심"] = 5 := by
  refine ⟨by decide, by decide, by decide, by decide⟩

/-- C4 amended: the scorer assigns a label the weight of a table entry only
when the label exactly equals the entry's key (lookup is neither
case-insensitive nor substring-tolerant); the result is the maximum weight
found, clamped to 5, is 1 when no label is a table key or the list is
empty, and any score above 1 is the exact weight of some label in the
list. -/
theorem C4_amended_exact_lookup (ls : List String) :
    ∃ r, calculate_significance (.list ls) = some r ∧
      1 ≤ r ∧ r ≤ 5 ∧
      (∀ l ∈ ls, ∀ w, weightsLookup l = some w → min w 5 ≤ r) ∧
      ((∀ l ∈ ls, weightsLookup l = none) → r = 1) ∧
      (1 < r → ∃ l ∈ ls, weightsLookup l = some r) := by
  refine ⟨min (ls.foldl (fun m l => max m ((weightsLookup l).getD 1)) 1) 5,
    calculate_significance_list ls, ?_, min_le_right _ _, ?_, ?_, ?_⟩
  · exact le_min (foldl_max_init_le _ ls 1) (by omega)
  · intro l hl w hw
    have hgl : (weightsLookup l).getD 1 = w := by rw [hw]; rfl
    have hwle : w ≤ ls.foldl (fun m l => max m ((weightsLookup l).getD 1)) 1 :=
      hgl ▸ le_foldl_max_of_mem (fun l => (weightsLookup l).getD 1) ls 1 l hl
    exact min_le_min hwle (le_refl 5)
  · intro hall
    have hM1 : ls.foldl (fun m l => max m ((weightsLookup l).getD 1)) 1 ≤ 1 :=
      foldl_max_le_bound _ ls 1 1 (le_refl 1) (fun l hl => by rw [hall l hl]; exact le_refl 1)
    have hM2 : 1 ≤ ls.foldl (fun m l => max m ((weightsLookup l).getD 1)) 1 :=
      foldl_max_init_le _ ls 1
    have hM : ls.foldl (fun m l => max m ((weightsLookup l).getD 1)) 1 = 1 :=
      le_antisymm hM1 hM2
    rw [hM]
    exact min_eq_left (by omega)
  · intro hgt
    have hM5 : ls.foldl (fun m l => max m ((weightsLookup l).getD 1)) 1 ≤ 5 :=
      foldl_max_le_bound _ ls 1 5 (by omega) (fun l _ => label_weight_le_5 l)
    have hmin : min (ls.foldl (fun m l => max m ((weightsLookup l).getD 1)) 1) 5
        = ls.foldl (fun m l => max m ((weightsLookup l).getD 1)) 1 := min_eq_left hM5
    rw [hmin] at hgt ⊢
    rcases foldl_max_provenance (fun l => (weightsLookup l).getD 1) ls 1 with h | ⟨l, hl, hgl⟩
    · rw [h] at hgt
      exact absurd hgt (by omega)
    · refine ⟨l, hl, ?_⟩
      cases hw : weightsLookup l with
      | none =>
        rw [hw] at hgl
        simp only [Option.getD_none] at hgl
        exact absurd hgt (by omega)
      | some w =>
        rw [hw] at hgl
        simp only [Option.getD_some] at hgl
        exact congrArg some hgl

/-- Witness for C4 amended, at a list with one table key and one unknown
label. -/
theorem C4_amended_witness :
    ∃ r, calculate_significance (.list ["폭행", "무관"]) = some r ∧
      1 ≤ r ∧ r ≤ 5 ∧
      (∀ l ∈ ["폭행", "무관"], ∀ w, weightsLookup l = some w → min w 5 ≤ r) ∧
      ((∀ l ∈ ["폭행", "무관"], weightsLookup l = none) → r = 1) ∧
      (1 < r → ∃ l ∈ ["폭행", "무관"], weightsLookup l = some r) :=
  C4_amended_exact_lookup ["폭행", "무관"]

/-- A placeholder event, used only as the default of `Option.getD` when
naming the concrete events produced in witnesses. -/
def dummy_event : TimelineEvent :=
  { event_id := "", evidence_id := "", case_id := "", timestamp := none,
    date := "", time := "", description := "", content_preview := none,
    event_type := .document, labels := [], speaker := none, source_file := "",
    significance := 1, is_key_evidence := false }

/-- C5 counterexample: the code's type table has no "message" or "incident"
key and its lookup is case-sensitive, so a record typed "message" (or
"Text") produces a document event, while the spec's eight-entry
case-insensitive table maps them to message. -/
theorem C5_counterexample :
    mapEventType "message" = TimelineEventType.document ∧
    spec_type_mapping "message" = TimelineEventType.message ∧
    mapEventType "incident" = TimelineEventType.document ∧
    spec_type_mapping "incident" = TimelineEventType.incident ∧
    mapEventType "Text" = TimelineEventType.document ∧
    spec_type_mapping "Text" = TimelineEventType.message := by
  refine ⟨by decide, by decide, by decide, by decide, by decide, by decide⟩

/-- C5 amended: the event type comes from a case-sensitive exact lookup in
the six-key table {text, image, audio, video, pdf, document}; every other
raw type string, "message", "incident" and case variants included, maps to
document, and the produced event's event_type is exactly this lookup
applied to the record's type slot (defaulting to "document" when absent). -/
theorem C5_amended_case_sensitive :
    (∀ s : String, mapEventType s =
      if s = "text" then TimelineEventType.message
      else if s = "image" then TimelineEventType.image
      else if s = "audio" then TimelineEventType.audio
      else if s = "video" then TimelineEventType.video
      else TimelineEventType.document) ∧
    (∀ (ev : Evidence) (cid : String) (e : TimelineEvent),
      evidence_to_event ev cid = some e →
      e.event_type = mapEventType (ev.type.getD "document")) := by
  constructor
  · intro s
    by_cases h1 : s = "text"
    · subst h1; decide
    rw [if_neg h1]
    by_cases h2 : s = "image"
    · subst h2; decide
    rw [if_neg h2]
    by_cases h3 : s = "audio"
    · subst h3; decide
    rw [if_neg h3]
    by_cases h4 : s = "video"
    · subst h4; decide
    rw [if_neg h4]
    have h1' : ¬ ("text" = s) := fun h => h1 h.symm
    have h2' : ¬ ("image" = s) := fun h => h2 h.symm
    have h3' : ¬ ("audio" = s) := fun h => h3 h.symm
    have h4' : ¬ ("video" = s) := fun h => h4 h.symm
    by_cases h5 : "pdf" = s
    · subst h5; decide
    by_cases h6 : "document" = s
    · subst h6; decide
    unfold mapEventType TYPE_MAPPING
    simp [List.find?, h1', h2', h3', h4', h5, h6]
  · intro ev cid e he
    rcases Option.map_eq_some'.mp he with ⟨sig, hsig, hfe⟩
    subst hfe
    rfl

/-- Concrete record with raw type "message", for the C5 witness. -/
def c5_ev : Evidence := { type := some "message" }

/-- The event the code produces from `c5_ev`. -/
def c5_evt : TimelineEvent := (evidence_to_event c5_ev "c").getD dummy_event

/-- Witness for C5 amended at the "message"-typed record. -/
theorem C5_amended_witness :
    evidence_to_event c5_ev "c" = some c5_evt ∧
    c5_evt.event_type = mapEventType (c5_ev.type.getD "document") :=
  ⟨rfl, C5_amended_case_sensitive.2 c5_ev "c" c5_evt rfl⟩

/-- The record with neither an evidence_id nor an id slot, for C7. -/
def c7_ev : Evidence := {}

/-- C7 counterexample: a record carrying neither identifier slot is NOT
dropped: it normalizes to an event with empty evidence_id (event_id
"evt_"), appears in the event list, and is counted in total_count. -/
theorem C7_counterexample :
    (build_events [c7_ev] "c").map (fun e => (e.event_id, e.evidence_id)) = [("evt_", "")] ∧
    (build_result "c" (build_events [c7_ev] "c")
        (apply_filters (build_events [c7_ev] "c") {}) {} (.str "t")).map
        (fun r => r.total_count) = some 1 := by
  refine ⟨rfl, rfl⟩

/-- C7 amended: a record lacking both identifier slots resolves to the
empty-string evidence_id (event_id "evt_") and is normalized, not dropped;
a record is dropped exactly when its conversion raises, which in the
modelled domain happens exactly when significance calculation iterates a
non-iterable labels value. -/
theorem C7_amended_empty_id :
    (∀ (ev : Evidence) (cid : String) (e : TimelineEvent),
      ev.evidence_id = none → ev.id = none →
      evidence_to_event ev cid = some e →
      e.evidence_id = "" ∧ e.event_id = "evt_") ∧
    (∀ (ev : Evidence) (cid : String),
      evidence_to_event ev cid = none ↔
        calculate_significance (resolveLabels ev.labels ev.article_840_tags) = none) := by
  constructor
  · intro ev cid e h1 h2 he
    rcases Option.map_eq_some'.mp he with ⟨sig, hsig, hfe⟩
    subst hfe
    constructor
    · show resolve_evidence_id ev = ""
      unfold resolve_evidence_id
      rw [h1, h2]
      rfl
    · show "evt_" ++ resolve_evidence_id ev = "evt_"
      unfold resolve_evidence_id
      rw [h1, h2]
      rfl
  · intro ev cid
    exact Option.map_eq_none'

/-- The event produced from the identifier-free record. -/
def c7_evt : TimelineEvent := (evidence_to_event c7_ev "c").getD dummy_event

/-- Witness for C7 amended at the identifier-free record. -/
theorem C7_amended_witness :
    (c7_ev.evidence_id = none ∧ c7_ev.id = none ∧
      evidence_to_event c7_ev "c" = some c7_evt) ∧
    (c7_evt.evidence_id = "" ∧ c7_evt.event_id = "evt_") :=
  ⟨⟨rfl, rfl, rfl⟩, C7_amended_empty_id.1 c7_ev "c" c7_evt rfl rfl rfl⟩

/-- The parse result of "2024-01-01T01:00:00+09:00". -/
def c8_local : PyDatetime := ⟨2024, 1, 1, 1, 0, 0, some 540⟩

/-- The parse result of "2023-12-31T16:00:00Z" (Z replaced by +00:00). -/
def c8_utc : PyDatetime := ⟨2023, 12, 31, 16, 0, 0, some 0⟩

/-- Record whose timestamp parses with a +09:00 offset. -/
def c8_ev1 : Evidence := { timestamp := some (.isoStr c8_local) }

/-- Record whose timestamp parses as the same instant in UTC. -/
def c8_ev2 : Evidence := { timestamp := some (.isoStr c8_utc) }

/-- C8 counterexample: the two records denote the same UTC instant, yet the
code displays different dates for them — the display strings are formatted
from the parsed wall clock with its original offset, not from the
UTC-normalized instant (which would give "2023-12-31" for both), and the
stored timestamp keeps the +09:00 offset rather than being converted. -/
theorem C8_counterexample :
    utcInstantMinutes c8_local = utcInstantMinutes c8_utc ∧
    (evidence_to_event c8_ev1 "c").map (fun e => e.date) = some "2024-01-01" ∧
    (evidence_to_event c8_ev2 "c").map (fun e => e.date) = some "2023-12-31" ∧
    (evidence_to_event c8_ev1 "c").map (fun e => e.timestamp) = some (some c8_local) := by
  refine ⟨by decide, rfl, rfl, rfl⟩

/-- C8 amended: no timezone normalization happens — whenever the timestamp
slot parses to a datetime, the event stores that datetime exactly as parsed
(a naive datetime stays naive, an offset-carrying one keeps its offset, a
trailing Z having become the +00:00 offset), and the date and time display
strings are formatted from that datetime's own calendar fields. -/
theorem C8_amended_no_tz_conversion :
    ∀ (ev : Evidence) (cid : String) (e : TimelineEvent) (d : PyDatetime),
      evidence_to_event ev cid = some e →
      parse_ts (resolve_ts ev) = some d →
      e.timestamp = some d ∧ e.date = formatDate d ∧ e.time = formatTime d := by
  intro ev cid e d he hd
  rcases Option.map_eq_some'.mp he with ⟨sig, hsig, hfe⟩
  subst hfe
  refine ⟨hd, ?_, ?_⟩
  · show date_of_ts (parse_ts (resolve_ts ev)) = formatDate d
    rw [hd]
    rfl
  · show time_of_ts (parse_ts (resolve_ts ev)) = formatTime d
    rw [hd]
    rfl

/-- The event the code produces from the +09:00 record. -/
def c8_evt : TimelineEvent := (evidence_to_event c8_ev1 "c").getD dummy_event

/-- Witness for C8 amended at the +09:00 record. -/
theorem C8_amended_witness :
    (evidence_to_event c8_ev1 "c" = some c8_evt ∧
      parse_ts (resolve_ts c8_ev1) = some c8_local) ∧
    (c8_evt.timestamp = some c8_local ∧ c8_evt.date = formatDate c8_local ∧
      c8_evt.time = formatTime c8_local) :=
  ⟨⟨rfl, rfl⟩, C8_amended_no_tz_conversion c8_ev1 "c" c8_evt c8_local rfl rfl⟩

/-- A record whose labels slot is a non-empty dict (a non-list iterable
yielding the weight-5 key), for C9. -/
def c9_ev : Evidence := { labels := some (.iter ["부정행위"]) }

/-- C9 counterexample: a non-list labels value yields an event whose labels
sequence is empty while significance is computed from the raw value: the
produced event has labels = [], significance = 5 and is_key_evidence =
true, contradicting the claim that empty event labels force significance 1. -/
theorem C9_counterexample :
    (evidence_to_event c9_ev "c").map (fun e => (e.labels, e.significance, e.is_key_evidence))
      = some ([], 5, true) := by
  rfl

/-- The labels slot is absent or holds a Python list. -/
def listLike : Option LabelsVal → Prop
  | none => True
  | some (.list _) => True
  | some _ => False

/-- The tags slot is absent, a non-dict, or a dict whose categories value
is absent or a Python list. -/
def tagsListLike : Option TagsVal → Prop
  | none => True
  | some .nonDict => True
  | some (.dict cats) => listLike cats

theorem resolveLabels_none_list (tv : Option TagsVal) (ht : tagsListLike tv) :
    ∃ ys, resolveLabels none tv = .list ys := by
  cases tv with
  | none => exact ⟨[], rfl⟩
  | some v =>
    cases v with
    | nonDict => exact ⟨[], rfl⟩
    | dict cats =>
      cases cats with
      | none => exact ⟨[], rfl⟩
      | some c =>
        cases c with
        | list ys => exact ⟨ys, rfl⟩
        | iter ys => exact False.elim ht
        | notIterable => exact False.elim ht

theorem resolveLabels_list {lv : Option LabelsVal} {tv : Option TagsVal}
    (hl : listLike lv) (ht : tagsListLike tv) :
    ∃ xs, resolveLabels lv tv = .list xs := by
  cases lv with
  | none => exact resolveLabels_none_list tv ht
  | some v =>
    cases v with
    | list xs =>
      cases xs with
      | nil => exact resolveLabels_none_list tv ht
      | cons x rest => exact ⟨x :: rest, rfl⟩
    | iter xs => exact False.elim hl
    | notIterable => exact False.elim hl

/-- C9 amended: restricted to records whose labels slot (and nested
categories slot) is absent or an actual Python list — the shapes the spec
describes — an event produced with an empty labels sequence has
significance 1 and is therefore not key evidence.  (The unrestricted claim
fails: see the counterexample, where a dict-valued labels slot empties the
event's labels but still scores 5.) -/
theorem C9_amended_list_labels :
    ∀ (ev : Evidence) (cid : String) (e : TimelineEvent),
      listLike ev.labels → tagsListLike ev.article_840_tags →
      evidence_to_event ev cid = some e → e.labels = [] →
      e.significance = 1 ∧ e.is_key_evidence = false := by
  intro ev cid e hl ht he hemp
  rcases resolveLabels_list hl ht with ⟨xs, hres⟩
  rcases Option.map_eq_some'.mp he with ⟨sig, hsig, hfe⟩
  subst hfe
  have hxs : xs = [] := by
    have hlab : labelsOf (resolveLabels ev.labels ev.article_840_tags) = [] := hemp
    rw [hres] at hlab
    exact hlab
  rw [hres, hxs] at hsig
  have hone : (1 : Nat) = sig := Option.some.inj hsig
  constructor
  · exact hone.symm
  · show decide (sig ≥ KEY_EVIDENCE_THRESHOLD) = false
    rw [← hone]
    rfl

/-- A record with an honest empty labels list, for the C9 witness. -/
def c9w_ev : Evidence := { labels := some (.list []) }

/-- The event produced from that record. -/
def c9w_evt : TimelineEvent := (evidence_to_event c9w_ev "c").getD dummy_event

/-- Witness for C9 amended at the empty-list record. -/
theorem C9_amended_witness :
    (listLike c9w_ev.labels ∧ tagsListLike c9w_ev.article_840_tags ∧
      evidence_to_event c9w_ev "c" = some c9w_evt ∧ c9w_evt.labels = []) ∧
    (c9w_evt.significance = 1 ∧ c9w_evt.is_key_evidence = false) :=
  ⟨⟨trivial, trivial, rfl, rfl⟩,
    C9_amended_list_labels c9w_ev "c" c9w_evt trivial trivial rfl rfl⟩
